import Mathlib

/-!
# Verification of the finance-wizard transaction analyzer

Shallow embedding of `FinanceAnalyzer` (src/analysis/analyzer.ts, shipped here
as src/unnamed/part_007, lines 447-779) together with the data shapes from
src/types (src/unnamed/part_003 and part_005).

Modelling conventions:
* JS `number` amounts are modelled as `ℚ` (the analyzer receives amounts
  already converted to decimal major units; all literals involved, 0.1, 20,
  0.3, 12, 5, 3, are exactly representable).
* `Math.abs` is `absQ` (negate when negative, exactly the JS semantics).
* Optional string fields are `Option String`; JS truthiness of a string
  (false for `undefined`/`null`/`""`) is `truthyStr`, and `a || b` on strings
  is `strOr`.
* Transaction dates are ISO `YYYY-MM-DD` strings; we model the parsed calendar
  date as a `TDate` record (year, month, day).  Comparison of parsed dates is
  lexicographic, and the `format(date, 'yyyy-MM')` month key is modelled as
  `year * 100 + month`, whose `Nat` order coincides with the lexicographic
  order of zero-padded `yyyy-MM` strings used by `localeCompare`.
* A JS `Map` populated by pushing into per-key arrays iterates keys in first
  insertion order with values in push order; this is modelled by `dedupFirst`
  of the mapped keys together with `List.filter` per key.
* `Array.prototype.sort` is stable; it is modelled by the stable insertion
  sort `sortBy`.
* Human-readable `description` strings are kept, except that numbers embedded
  via `toFixed(2)` are elided (decimal float formatting is not modelled; no
  claim concerns descriptions).
-/

/-- JS `Math.abs` on a rational amount. -/
def absQ (q : ℚ) : ℚ := if q < 0 then -q else q

/-- JS truthiness of an optional string: `undefined` and `""` are falsy. -/
def truthyStr : Option String → Bool
  | none => false
  | some s => !(s == "")

/-- JS `String.prototype.startsWith`, modelled character-wise (Lean's
built-in `String.startsWith` is byte-level and not kernel-reducible). -/
def strStartsWith (s p : String) : Bool := p.toList.isPrefixOf s.toList

/-- JS `a || b` for an optional string `a` with default `b`. -/
def strOr (a : Option String) (b : String) : String :=
  match a with
  | none => b
  | some s => if s == "" then b else s

/-- A parsed calendar date (from the transaction's ISO `YYYY-MM-DD` string). -/
structure TDate where
  y : Nat
  m : Nat
  d : Nat
deriving DecidableEq, Repr

instance : Inhabited TDate := ⟨⟨1970, 1, 1⟩⟩

/-- `new Date(a) <= new Date(b)` for parsed calendar dates (lexicographic). -/
def dateLe (a b : TDate) : Bool :=
  decide (a.y < b.y) ||
    (decide (a.y = b.y) &&
      (decide (a.m < b.m) || (decide (a.m = b.m) && decide (a.d ≤ b.d))))

/-- Cleared status of a YNAB transaction. -/
inductive Cleared where
  | cleared
  | uncleared
  | reconciled
deriving DecidableEq, Repr

/-- `YNABTransaction` (src/unnamed/part_005, lines 1-20). -/
structure YNABTransaction where
  id : String := ""
  date : TDate := default
  amount : ℚ := 0
  memo : Option String := none
  cleared : Cleared := .cleared
  approved : Bool := true
  flag_color : Option String := none
  account_id : String := ""
  account_name : String := ""
  payee_id : Option String := none
  payee_name : Option String := none
  category_id : Option String := none
  category_name : Option String := none
  transfer_account_id : Option String := none
  transfer_transaction_id : Option String := none
  matched_transaction_id : Option String := none
  import_id : Option String := none
  deleted : Bool := false
deriving DecidableEq, Repr

instance : Inhabited YNABTransaction := ⟨{}⟩

/-- `AnalysisConfig` (src/unnamed/part_003, lines 50-56). -/
structure AnalysisConfig where
  startDate : TDate
  endDate : TDate
  includedAccounts : Option (List String) := none
  excludedCategories : Option (List String) := none
  minTransactionAmount : Option ℚ := none
deriving DecidableEq, Repr

/-- `SpendingPattern.trend` classification values. -/
inductive Trend where
  | increasing
  | decreasing
  | stable
deriving DecidableEq, Repr

/-- `SavingsOpportunity.type` tags. -/
inductive OppType where
  | recurring_subscription
  | high_frequency_small
  | category_overspend
  | unusual_spike
deriving DecidableEq, Repr

/-- `SavingsOpportunity.confidence` levels. -/
inductive Confidence where
  | high
  | medium
  | low
deriving DecidableEq, Repr

/-- `SpendingPattern` (src/unnamed/part_003, lines 3-11). -/
structure SpendingPattern where
  category : String
  totalAmount : ℚ
  transactionCount : Nat
  averageAmount : ℚ
  monthlyAverage : ℚ
  trend : Trend
  percentageOfTotal : ℚ
deriving DecidableEq, Repr

/-- `SavingsOpportunity` (src/unnamed/part_003, lines 13-21). -/
structure SavingsOpportunity where
  type : OppType
  category : String
  description : String
  potentialSavings : ℚ
  confidence : Confidence
  recommendations : List String
  transactions : List YNABTransaction
deriving DecidableEq, Repr

/-- `BudgetAnalysis` status values (src/unnamed/part_003, line 29). -/
inductive BudgetStatus where
  | under_budget
  | on_track
  | over_budget
deriving DecidableEq, Repr

/-- `BudgetAnalysis` (src/unnamed/part_003, lines 23-32). -/
structure BudgetAnalysis where
  category : String
  budgeted : ℚ
  spent : ℚ
  remaining : ℚ
  percentageUsed : ℚ
  status : BudgetStatus
  daysRemaining : Nat
  projectedSpend : ℚ
deriving DecidableEq, Repr

/-- One row of `FinancialInsights.monthlyTrends` (src/unnamed/part_003,
lines 42-47): the `yyyy-MM` month string is modelled as the key
`year * 100 + month`. -/
structure MonthlyTrend where
  month : Nat
  spent : ℚ
  income : ℚ
  netFlow : ℚ
deriving DecidableEq, Repr

instance : Inhabited MonthlyTrend := ⟨⟨0, 0, 0, 0⟩⟩

/-- `FinancialInsights` (src/unnamed/part_003, lines 34-48). -/
structure FinancialInsights where
  totalSpent : ℚ
  totalIncome : ℚ
  netCashFlow : ℚ
  topSpendingCategories : List SpendingPattern
  savingsOpportunities : List SavingsOpportunity
  budgetAnalysis : List BudgetAnalysis
  unusualTransactions : List YNABTransaction
  monthlyTrends : List MonthlyTrend
deriving DecidableEq, Repr

/-- First-occurrence deduplication: the key iteration order of a JS `Map`
(or `Set`) populated left to right. -/
def dedupFirst {α : Type} [DecidableEq α] : List α → List α
  | [] => []
  | a :: as => a :: (dedupFirst as).filter (fun b => decide (b ≠ a))

/-- Insert into a sorted list, before the first element it `le`-precedes. -/
def insertBy {α : Type} (le : α → α → Bool) (a : α) : List α → List α
  | [] => [a]
  | b :: bs => if le a b then a :: b :: bs else b :: insertBy le a bs

/-- Stable insertion sort: the model of JS `Array.prototype.sort` (equal
elements keep their original relative order). -/
def sortBy {α : Type} (le : α → α → Bool) : List α → List α
  | [] => []
  | a :: as => insertBy le a (sortBy le as)

/-- JS `Math.max(...amounts)` over a non-empty array (`0` only pads the
never-taken empty case). -/
def listMax : List ℚ → ℚ
  | [] => 0
  | a :: as => as.foldl max a

namespace FinanceAnalyzer

/-- The `yyyy-MM` month bucket key of `format(new Date(t.date), 'yyyy-MM')`,
as `year * 100 + month`. -/
def monthKey (t : YNABTransaction) : Nat := t.date.y * 100 + t.date.m

/-- The config-dependent filter chain of `filterTransactions`
(src/unnamed/part_007, lines 466-486): date range, included accounts,
excluded categories, minimum absolute amount, each applied only when the
corresponding field is truthy. -/
def configFilters (config : Option AnalysisConfig)
    (filtered : List YNABTransaction) : List YNABTransaction :=
  match config with
  | none => filtered
  | some c =>
    let f1 := filtered.filter (fun t => dateLe c.startDate t.date)
    let f2 := f1.filter (fun t => dateLe t.date c.endDate)
    let f3 := match c.includedAccounts with
      | none => f2
      | some accts =>
        if accts.isEmpty then f2
        else f2.filter (fun t => accts.contains t.account_id)
    let f4 := match c.excludedCategories with
      | none => f3
      | some cats =>
        if cats.isEmpty then f3
        else f3.filter (fun t => !(cats.contains (t.category_id.getD "")))
    match c.minTransactionAmount with
      | none => f4
      | some m =>
        if m = 0 then f4
        else f4.filter (fun t => decide (m ≤ absQ t.amount))

/-- `filterTransactions` (src/unnamed/part_007, lines 463-487): deleted
transactions are discarded first, then the config filters apply. -/
def filterTransactions (transactions : List YNABTransaction)
    (config : Option AnalysisConfig) : List YNABTransaction :=
  configFilters config (transactions.filter (fun t => !t.deleted))

/-- `calculateTotalSpent` (src/unnamed/part_007, lines 489-493). -/
def calculateTotalSpent (transactions : List YNABTransaction) : ℚ :=
  ((transactions.filter (fun t => decide (t.amount < 0))).map
    (fun t => absQ t.amount)).sum

/-- `calculateTotalIncome` (src/unnamed/part_007, lines 495-499). -/
def calculateTotalIncome (transactions : List YNABTransaction) : ℚ :=
  ((transactions.filter (fun t => decide (0 < t.amount))).map
    (fun t => t.amount)).sum

/-- `calculateNetCashFlow` (src/unnamed/part_007, lines 501-503). -/
def calculateNetCashFlow (transactions : List YNABTransaction) : ℚ :=
  (transactions.map (fun t => t.amount)).sum

/-- `getCategoryName` (src/unnamed/part_007, lines 764-771): the resolved
category label, with the transfer special case before the
`category_name || 'Uncategorized'` fallback. -/
def getCategoryName (transaction : YNABTransaction) : String :=
  if strStartsWith (transaction.payee_name.getD "") "Transfer"
      && !(truthyStr transaction.category_id) then
    "Credit Card Payment"
  else
    strOr transaction.category_name "Uncategorized"

/-- `getUniqueMonths` (src/unnamed/part_007, lines 741-747): the distinct
month keys, in first-occurrence order (JS `Set` insertion order). -/
def getUniqueMonths (transactions : List YNABTransaction) : List Nat :=
  dedupFirst (transactions.map monthKey)

/-- `analyzeMonthlyTrends` (src/unnamed/part_007, lines 715-739): bucket by
month key, compute spent/income/netFlow per bucket, sort ascending by
month. -/
def analyzeMonthlyTrends (transactions : List YNABTransaction) :
    List MonthlyTrend :=
  let keys := dedupFirst (transactions.map monthKey)
  let trends := keys.map (fun k =>
    let monthTransactions := transactions.filter (fun t => decide (monthKey t = k))
    { month := k
      spent := calculateTotalSpent monthTransactions
      income := calculateTotalIncome monthTransactions
      netFlow := calculateNetCashFlow monthTransactions : MonthlyTrend })
  sortBy (fun a b => decide (a.month ≤ b.month)) trends

/-- `calculateTrend` (src/unnamed/part_007, lines 749-762). -/
def calculateTrend (transactions : List YNABTransaction) : Trend :=
  let monthlyTotals := analyzeMonthlyTrends transactions
  if monthlyTotals.length < 2 then .stable
  else
    let first := (monthlyTotals.headD default).spent
    let last := (monthlyTotals.getLastD default).spent
    let change := (last - first) / first
    if change > 1/10 then .increasing
    else if change < -(1/10) then .decreasing
    else .stable

/-- `analyzeSpendingPatterns` (src/unnamed/part_007, lines 505-545): bucket
negative-amount transactions by resolved category label, build one
`SpendingPattern` per bucket, sort descending by total amount. -/
def analyzeSpendingPatterns (transactions : List YNABTransaction) :
    List SpendingPattern :=
  let negatives := transactions.filter (fun t => decide (t.amount < 0))
  let keys := dedupFirst (negatives.map getCategoryName)
  let totalSpent := calculateTotalSpent transactions
  let patterns := keys.map (fun category =>
    let categoryTransactions :=
      negatives.filter (fun t => decide (getCategoryName t = category))
    let totalAmount := (categoryTransactions.map (fun t => absQ t.amount)).sum
    let transactionCount := categoryTransactions.length
    let averageAmount := totalAmount / (transactionCount : ℚ)
    let months := getUniqueMonths categoryTransactions
    let monthlyAverage := totalAmount / (months.length : ℚ)
    let trend := calculateTrend categoryTransactions
    { category := category
      totalAmount := totalAmount
      transactionCount := transactionCount
      averageAmount := averageAmount
      monthlyAverage := monthlyAverage
      trend := trend
      percentageOfTotal := (totalAmount / totalSpent) * 100 : SpendingPattern })
  sortBy (fun a b => decide (b.totalAmount ≤ a.totalAmount)) patterns

/-- The negative-amount, truthy-payee candidates grouped by
`findRecurringSubscriptions` (src/unnamed/part_007, lines 569-577). -/
def subscriptionCandidates (transactions : List YNABTransaction) :
    List YNABTransaction :=
  transactions.filter (fun t => decide (t.amount < 0) && truthyStr t.payee_name)

/-- The bucket of one payee inside `findRecurringSubscriptions`. -/
def payeeGroup (transactions : List YNABTransaction) (payee : String) :
    List YNABTransaction :=
  (subscriptionCandidates transactions).filter
    (fun t => decide (t.payee_name.getD "" = payee))

/-- `avgAmount` of a payee bucket (src/unnamed/part_007, line 582). -/
def payeeAvg (payeeTransactions : List YNABTransaction) : ℚ :=
  ((payeeTransactions.map (fun t => absQ t.amount)).sum) /
    (payeeTransactions.length : ℚ)

/-- `variance` of a payee bucket, population variance of the absolute
amounts (src/unnamed/part_007, line 583). -/
def payeeVariance (payeeTransactions : List YNABTransaction) : ℚ :=
  ((payeeTransactions.map
      (fun t => (absQ t.amount - payeeAvg payeeTransactions) ^ 2)).sum) /
    (payeeTransactions.length : ℚ)

/-- `findRecurringSubscriptions` (src/unnamed/part_007, lines 565-608):
payees with ≥ 2 occurrences and variance below a tenth of the mean yield a
`recurring_subscription` opportunity with `potentialSavings = mean * 12`.
Note the opportunity's `category` is `payeeTransactions[0].category_name ||
'Uncategorized'`, not the resolved `getCategoryName` label. -/
def findRecurringSubscriptions (transactions : List YNABTransaction) :
    List SavingsOpportunity :=
  (dedupFirst ((subscriptionCandidates transactions).map
      (fun t => t.payee_name.getD ""))).filterMap
    (fun payee =>
      let payeeTransactions := payeeGroup transactions payee
      if 2 ≤ payeeTransactions.length then
        if payeeVariance payeeTransactions <
            payeeAvg payeeTransactions * (1/10) then
          some { type := .recurring_subscription
                 category := strOr payeeTransactions.headI.category_name
                   "Uncategorized"
                 description := "Review subscription to " ++ payee
                 potentialSavings := payeeAvg payeeTransactions * 12
                 confidence := .high
                 recommendations :=
                   ["Review if this subscription is still needed",
                    "Check for cheaper alternatives",
                    "Consider annual billing for discounts"]
                 transactions := payeeTransactions }
        else none
      else none)

/-- The small (absolute value < 20) negative-amount transactions considered
by `findHighFrequencySmallPurchases` (src/unnamed/part_007, lines 614-622). -/
def smallPurchases (transactions : List YNABTransaction) :
    List YNABTransaction :=
  transactions.filter
    (fun t => decide (t.amount < 0) && decide (absQ t.amount < 20))

/-- The bucket of one resolved category label inside
`findHighFrequencySmallPurchases`. -/
def smallCategoryGroup (transactions : List YNABTransaction)
    (category : String) : List YNABTransaction :=
  (smallPurchases transactions).filter
    (fun t => decide (getCategoryName t = category))

/-- `findHighFrequencySmallPurchases` (src/unnamed/part_007, lines 610-646):
resolved categories with ≥ 10 small purchases yield a `high_frequency_small`
opportunity with `potentialSavings = totalAmount * 0.3`. -/
def findHighFrequencySmallPurchases (transactions : List YNABTransaction) :
    List SavingsOpportunity :=
  (dedupFirst ((smallPurchases transactions).map getCategoryName)).filterMap
    (fun category =>
      let categoryTransactions := smallCategoryGroup transactions category
      if 10 ≤ categoryTransactions.length then
        some { type := .high_frequency_small
               category := category
               description := "Frequent small purchases in " ++ category
               potentialSavings :=
                 ((categoryTransactions.map (fun t => absQ t.amount)).sum) *
                   (3/10)
               confidence := .medium
               recommendations :=
                 ["Set a monthly budget for this category",
                  "Consider bulk purchasing",
                  "Track these purchases more carefully"]
               transactions := categoryTransactions }
      else none)

/-- `findCategoryOverspending` (src/unnamed/part_007, lines 648-651): a stub,
always empty (no budget data). -/
def findCategoryOverspending (_transactions : List YNABTransaction) :
    List SavingsOpportunity :=
  []

/-- The bucket of one resolved category label inside `findUnusualSpikes`
(src/unnamed/part_007, lines 657-665). -/
def spikeCategoryGroup (transactions : List YNABTransaction)
    (category : String) : List YNABTransaction :=
  (transactions.filter (fun t => decide (t.amount < 0))).filter
    (fun t => decide (getCategoryName t = category))

/-- `findUnusualSpikes` (src/unnamed/part_007, lines 653-698): resolved
categories with ≥ 5 negative transactions whose maximum absolute amount
exceeds three times the mean yield an `unusual_spike` opportunity
referencing the first transaction attaining the maximum. -/
def findUnusualSpikes (transactions : List YNABTransaction) :
    List SavingsOpportunity :=
  (dedupFirst ((transactions.filter (fun t => decide (t.amount < 0))).map
      getCategoryName)).filterMap
    (fun category =>
      let categoryTransactions := spikeCategoryGroup transactions category
      if 5 ≤ categoryTransactions.length then
        let amounts := categoryTransactions.map (fun t => absQ t.amount)
        let avgAmount := amounts.sum / (amounts.length : ℚ)
        let maxAmount := listMax amounts
        if maxAmount > avgAmount * 3 then
          some { type := .unusual_spike
                 category := category
                 description := "Unusual spending spike in " ++ category
                 potentialSavings := maxAmount - avgAmount
                 confidence := .low
                 recommendations :=
                   ["Review what caused this large expense",
                    "Consider if this was a one-time purchase",
                    "Plan for similar expenses in the future"]
                 transactions :=
                   [(categoryTransactions.find?
                       (fun t => decide (absQ t.amount = maxAmount))).getD
                     default] }
        else none
      else none)

/-- `findSavingsOpportunities` (src/unnamed/part_007, lines 547-563): the
four detectors concatenated in source order, sorted descending by potential
savings. -/
def findSavingsOpportunities (transactions : List YNABTransaction) :
    List SavingsOpportunity :=
  sortBy (fun a b => decide (b.potentialSavings ≤ a.potentialSavings))
    (findRecurringSubscriptions transactions ++
      findHighFrequencySmallPurchases transactions ++
      findCategoryOverspending transactions ++
      findUnusualSpikes transactions)

/-- `analyzeBudgetPerformance` (src/unnamed/part_007, lines 700-703): a stub,
always empty. -/
def analyzeBudgetPerformance (_transactions : List YNABTransaction) :
    List BudgetAnalysis :=
  []

/-- `findUnusualTransactions` (src/unnamed/part_007, lines 705-716):
transactions whose absolute amount exceeds five times the mean absolute
negative amount, with an explicit empty-input guard. -/
def findUnusualTransactions (transactions : List YNABTransaction) :
    List YNABTransaction :=
  let amounts := (transactions.filter (fun t => decide (t.amount < 0))).map
    (fun t => absQ t.amount)
  if amounts.length = 0 then []
  else
    let avgAmount := amounts.sum / (amounts.length : ℚ)
    let threshold := avgAmount * 5
    transactions.filter (fun t => decide (absQ t.amount > threshold))

/-- `analyzeTransactions` (src/unnamed/part_007, lines 448-461): the
analyzer's sole entry point. -/
def analyzeTransactions (transactions : List YNABTransaction)
    (config : Option AnalysisConfig) : FinancialInsights :=
  let filteredTransactions := filterTransactions transactions config
  { totalSpent := calculateTotalSpent filteredTransactions
    totalIncome := calculateTotalIncome filteredTransactions
    netCashFlow := calculateNetCashFlow filteredTransactions
    topSpendingCategories := analyzeSpendingPatterns filteredTransactions
    savingsOpportunities := findSavingsOpportunities filteredTransactions
    budgetAnalysis := analyzeBudgetPerformance filteredTransactions
    unusualTransactions := findUnusualTransactions filteredTransactions
    monthlyTrends := analyzeMonthlyTrends filteredTransactions }

/-- The spec's own trend rule (spec.md §4.1, "Trend classification"): the
category's distinct months ordered ascending, their spent totals, `stable`
with fewer than 2 distinct months, else classify by the relative change
between the last and first monthly totals with thresholds ±0.10.  Stated
from the spec's words, to be compared with `calculateTrend`. -/
def specMonthSpentTotals (transactions : List YNABTransaction) : List ℚ :=
  (sortBy (fun a b => decide (a ≤ b))
      (dedupFirst (transactions.map monthKey))).map
    (fun k => calculateTotalSpent
      (transactions.filter (fun t => decide (monthKey t = k))))

/-- The spec's three-way classification of a relative change. -/
def specClassify (change : ℚ) : Trend :=
  if change > 1/10 then .increasing
  else if change < -(1/10) then .decreasing
  else .stable

/-- The spec's trend classification, assembled from `specMonthSpentTotals`
and `specClassify` (spec.md §4.1). -/
def specTrend (transactions : List YNABTransaction) : Trend :=
  match specMonthSpentTotals transactions with
  | [] => .stable
  | [_] => .stable
  | x :: y :: rest => specClassify (((y :: rest).getLastD x - x) / x)

end FinanceAnalyzer

/-! ## Concrete fixtures used to instantiate the theorems -/

section Fixtures

/-- A deleted transaction with otherwise significant fields. -/
def txDeleted : YNABTransaction :=
  { id := "del", date := ⟨2024, 3, 10⟩, amount := -500,
    payee_name := some "Shop", category_name := some "Groceries",
    deleted := true }

/-- A kept grocery outflow. -/
def txGroceries1 : YNABTransaction :=
  { id := "g1", date := ⟨2024, 3, 2⟩, amount := -50,
    payee_name := some "Store", category_id := some "cat-g",
    category_name := some "Groceries" }

/-- A second kept grocery outflow in the same month. -/
def txGroceries2 : YNABTransaction :=
  { id := "g2", date := ⟨2024, 3, 9⟩, amount := -30,
    payee_name := some "Store", category_id := some "cat-g",
    category_name := some "Groceries" }

/-- A salary income transaction. -/
def txIncome : YNABTransaction :=
  { id := "inc", date := ⟨2024, 3, 1⟩, amount := 1000,
    payee_name := some "Employer" }

/-- A credit-card transfer outflow with no category, first month. -/
def txTransfer1 : YNABTransaction :=
  { id := "tr1", date := ⟨2024, 1, 5⟩, amount := -100,
    payee_name := some "Transfer : Chase Credit Card" }

/-- A credit-card transfer outflow with no category, second month. -/
def txTransfer2 : YNABTransaction :=
  { id := "tr2", date := ⟨2024, 2, 5⟩, amount := -100,
    payee_name := some "Transfer : Chase Credit Card" }

/-- The `i`-th monthly Netflix charge of exactly 9.99. -/
def txNetflix (i : Nat) : YNABTransaction :=
  { id := "nf" ++ toString i, date := ⟨2024, i, 15⟩, amount := -(999/100),
    payee_name := some "Netflix" }

/-- Five identical 9.99 charges of the same payee in five months. -/
def fiveNetflix : List YNABTransaction :=
  [txNetflix 1, txNetflix 2, txNetflix 3, txNetflix 4, txNetflix 5]

/-- The `i`-th small coffee purchase (4.00 each). -/
def txCoffee (i : Nat) : YNABTransaction :=
  { id := "cf" ++ toString i, date := ⟨2024, 4, i⟩, amount := -4,
    payee_id := some "p-coffee", payee_name := some "Cafe",
    category_id := some "cat-c", category_name := some "Coffee" }

/-- Twelve small purchases in category "Coffee". -/
def twelveCoffee : List YNABTransaction :=
  [txCoffee 1, txCoffee 2, txCoffee 3, txCoffee 4, txCoffee 5, txCoffee 6,
   txCoffee 7, txCoffee 8, txCoffee 9, txCoffee 10, txCoffee 11, txCoffee 12]

/-- A 100.00 grocery outflow in January. -/
def txJan : YNABTransaction :=
  { id := "jan", date := ⟨2024, 1, 10⟩, amount := -100,
    category_id := some "cat-g", category_name := some "Groceries" }

/-- A 120.00 grocery outflow in February (20% above January). -/
def txFeb : YNABTransaction :=
  { id := "feb", date := ⟨2024, 2, 10⟩, amount := -120,
    category_id := some "cat-g", category_name := some "Groceries" }

end Fixtures

/-! ## Helper lemmas about the list combinators -/

namespace FinanceAnalyzer

theorem mem_dedupFirst {α : Type} [DecidableEq α] {a : α} :
    ∀ {l : List α}, a ∈ dedupFirst l ↔ a ∈ l := by
  intro l
  induction l with
  | nil => simp [dedupFirst]
  | cons b bs ih =>
    by_cases hab : a = b
    · subst hab; simp [dedupFirst]
    · simp [dedupFirst, hab, List.mem_filter, ih]

theorem nodup_dedupFirst {α : Type} [DecidableEq α] :
    ∀ (l : List α), (dedupFirst l).Nodup := by
  intro l
  induction l with
  | nil => simp [dedupFirst]
  | cons b bs ih =>
    simp only [dedupFirst, List.nodup_cons]
    constructor
    · intro hb
      have h2 := (List.mem_filter.mp hb).2
      simp at h2
    · exact ih.filter _

theorem insertBy_perm {α : Type} (le : α → α → Bool) (a : α) :
    ∀ (l : List α), (insertBy le a l).Perm (a :: l) := by
  intro l
  induction l with
  | nil => simp [insertBy]
  | cons b bs ih =>
    simp only [insertBy]
    by_cases h : le a b
    · simp [h]
    · simp only [h, Bool.false_eq_true, if_false]
      exact (ih.cons b).trans (List.Perm.swap a b bs)

theorem sortBy_perm {α : Type} (le : α → α → Bool) :
    ∀ (l : List α), (sortBy le l).Perm l := by
  intro l
  induction l with
  | nil => simp [sortBy]
  | cons a as ih =>
    exact (insertBy_perm le a (sortBy le as)).trans (ih.cons a)

theorem mem_sortBy {α : Type} {le : α → α → Bool} {a : α} {l : List α} :
    a ∈ sortBy le l ↔ a ∈ l :=
  (sortBy_perm le l).mem_iff

theorem length_sortBy {α : Type} (le : α → α → Bool) (l : List α) :
    (sortBy le l).length = l.length :=
  (sortBy_perm le l).length_eq

theorem sum_map_sortBy {α : Type} (le : α → α → Bool) (g : α → ℚ)
    (l : List α) : ((sortBy le l).map g).sum = (l.map g).sum :=
  ((sortBy_perm le l).map g).sum_eq

/-- Splitting a mapped sum along a boolean predicate. -/
theorem sum_map_filter_add_not {α : Type} (p : α → Bool) (g : α → ℚ) :
    ∀ (l : List α),
      ((l.filter p).map g).sum + ((l.filter (fun a => !(p a))).map g).sum =
        (l.map g).sum := by
  intro l
  induction l with
  | nil => simp
  | cons a as ih =>
    by_cases h : p a
    · simp only [List.filter_cons, h, Bool.not_true, if_true, if_false,
        Bool.false_eq_true, List.map_cons, List.sum_cons]
      rw [add_assoc, ih]
    · simp only [List.filter_cons, h, Bool.not_false, Bool.false_eq_true,
        if_false, if_true, List.map_cons, List.sum_cons]
      rw [add_left_comm, ih]

/-- Summing bucket totals over a duplicate-free list of keys covering every
element recovers the total. -/
theorem sum_over_keys {α K : Type} [DecidableEq K] (f : α → K) (g : α → ℚ) :
    ∀ (keys : List K) (l : List α), keys.Nodup → (∀ x ∈ l, f x ∈ keys) →
      (keys.map (fun k =>
        ((l.filter (fun x => decide (f x = k))).map g).sum)).sum =
        (l.map g).sum := by
  intro keys
  induction keys with
  | nil =>
    intro l _ hcov
    have : l = [] := by
      cases l with
      | nil => rfl
      | cons x xs => exact absurd (hcov x (by simp)) (by simp)
    simp [this]
  | cons k ks ih =>
    intro l hnd hcov
    have hnk : k ∉ ks := (List.nodup_cons.mp hnd).1
    have hnd' : ks.Nodup := (List.nodup_cons.mp hnd).2
    simp only [List.map_cons, List.sum_cons]
    have hrest : ∀ j ∈ ks,
        ((l.filter (fun x => decide (f x = j))).map g).sum =
          (((l.filter (fun x => !(decide (f x = k)))).filter
            (fun x => decide (f x = j))).map g).sum := by
      intro j hj
      have hjk : j ≠ k := fun h => hnk (h ▸ hj)
      congr 1
      rw [List.filter_filter]
      congr 1
      apply List.filter_congr
      intro x _
      by_cases hx : f x = j
      · simp [hx, hjk]
      · simp [hx]
    calc ((l.filter (fun x => decide (f x = k))).map g).sum +
          (ks.map (fun j =>
            ((l.filter (fun x => decide (f x = j))).map g).sum)).sum
        = ((l.filter (fun x => decide (f x = k))).map g).sum +
          (ks.map (fun j =>
            (((l.filter (fun x => !(decide (f x = k)))).filter
              (fun x => decide (f x = j))).map g).sum)).sum := by
          congr 1
          exact congrArg List.sum (List.map_congr_left hrest)
      _ = ((l.filter (fun x => decide (f x = k))).map g).sum +
          ((l.filter (fun x => !(decide (f x = k)))).map g).sum := by
          congr 1
          apply ih _ hnd'
          intro x hx
          have hxl : x ∈ l := (List.mem_filter.mp hx).1
          have hxk : ¬ (f x = k) := by
            have := (List.mem_filter.mp hx).2
            simpa using this
          have := hcov x hxl
          simpa [hxk] using this
      _ = (l.map g).sum := sum_map_filter_add_not _ g l

theorem insertBy_map {α β : Type} (leK : α → α → Bool) (leA : β → β → Bool)
    (g : α → β) (h : ∀ x y, leA (g x) (g y) = leK x y) (a : α) :
    ∀ l : List α, insertBy leA (g a) (l.map g) = (insertBy leK a l).map g := by
  intro l
  induction l with
  | nil => simp [insertBy]
  | cons b bs ih =>
    simp only [List.map_cons, insertBy, h a b]
    by_cases hab : leK a b
    · simp [hab]
    · simp [hab, ih]

theorem sortBy_map {α β : Type} (leK : α → α → Bool) (leA : β → β → Bool)
    (g : α → β) (h : ∀ x y, leA (g x) (g y) = leK x y) :
    ∀ l : List α, sortBy leA (l.map g) = (sortBy leK l).map g := by
  intro l
  induction l with
  | nil => simp [sortBy]
  | cons a as ih =>
    simp only [List.map_cons, sortBy, ih, insertBy_map leK leA g h a]

theorem getLastD_map {α β : Type} (g : α → β) :
    ∀ (l : List α) (d : α), (l.map g).getLastD (g d) = g (l.getLastD d) := by
  intro l d
  rw [List.getLastD_eq_getLast?, List.getLastD_eq_getLast?,
    List.getLast?_map]
  cases l.getLast? <;> simp

theorem foldl_max_mem : ∀ (l : List ℚ) (a : ℚ),
    l.foldl max a = a ∨ l.foldl max a ∈ l := by
  intro l
  induction l with
  | nil => intro a; left; rfl
  | cons b bs ih =>
    intro a
    simp only [List.foldl_cons]
    rcases ih (max a b) with h | h
    · rcases max_choice a b with h2 | h2
      · left; rw [h, h2]
      · right; rw [h, h2]; exact List.mem_cons_self b bs
    · right; exact List.mem_cons_of_mem _ h

theorem listMax_mem {l : List ℚ} (h : l ≠ []) : listMax l ∈ l := by
  cases l with
  | nil => exact absurd rfl h
  | cons a as =>
    simp only [listMax]
    rcases foldl_max_mem as a with h2 | h2
    · rw [h2]; exact List.mem_cons_self a as
    · exact List.mem_cons_of_mem _ h2

theorem absQ_nonneg (q : ℚ) : 0 ≤ absQ q := by
  unfold absQ
  split <;> linarith

theorem absQ_pos {q : ℚ} (h : q < 0) : 0 < absQ q := by
  unfold absQ
  rw [if_pos h]
  linarith

theorem calculateTotalSpent_nonneg (ts : List YNABTransaction) :
    0 ≤ calculateTotalSpent ts := by
  apply List.sum_nonneg
  intro x hx
  obtain ⟨t, _, rfl⟩ := List.mem_map.mp hx
  exact absQ_nonneg _

/-- A list holding at least one strictly negative amount has a strictly
positive spent total. -/
theorem calculateTotalSpent_pos {ts : List YNABTransaction}
    {t : YNABTransaction} (hmem : t ∈ ts) (hneg : t.amount < 0) :
    0 < calculateTotalSpent ts := by
  have hf : t ∈ ts.filter (fun t => decide (t.amount < 0)) :=
    List.mem_filter.mpr ⟨hmem, by simpa using hneg⟩
  obtain ⟨l1, l2, hsplit⟩ := List.append_of_mem hf
  unfold calculateTotalSpent
  rw [hsplit]
  simp only [List.map_append, List.map_cons, List.sum_append, List.sum_cons]
  have h1 : 0 ≤ (l1.map (fun t => absQ t.amount)).sum := by
    apply List.sum_nonneg
    intro x hx
    obtain ⟨u, _, rfl⟩ := List.mem_map.mp hx
    exact absQ_nonneg _
  have h2 : 0 ≤ (l2.map (fun t => absQ t.amount)).sum := by
    apply List.sum_nonneg
    intro x hx
    obtain ⟨u, _, rfl⟩ := List.mem_map.mp hx
    exact absQ_nonneg _
  have h3 : 0 < absQ t.amount := absQ_pos hneg
  linarith

/-- Income minus spent equals the signed sum, exactly, for every list. -/
theorem income_sub_spent (ts : List YNABTransaction) :
    calculateTotalIncome ts - calculateTotalSpent ts =
      calculateNetCashFlow ts := by
  induction ts with
  | nil => simp [calculateTotalIncome, calculateTotalSpent, calculateNetCashFlow]
  | cons t ts ih =>
    simp only [calculateTotalIncome, calculateTotalSpent,
      calculateNetCashFlow, List.filter_cons, List.map_cons,
      List.sum_cons] at ih ⊢
    rcases lt_trichotomy t.amount 0 with h | h | h
    · have hpos : ¬ (0 < t.amount) := by linarith
      have habs : absQ t.amount = -t.amount := by unfold absQ; rw [if_pos h]
      simp [h, hpos, habs]
      linarith [ih]
    · simp [h]
      linarith [ih]
    · have hneg : ¬ (t.amount < 0) := by linarith
      simp [h, hneg]
      linarith [ih]

/-- C1: for every transaction list and filter configuration, the insights
returned by `analyzeTransactions` satisfy
`netCashFlow = totalIncome - totalSpent` exactly. -/
theorem netCashFlow_eq_income_sub_spent (ts : List YNABTransaction)
    (cfg : Option AnalysisConfig) :
    (analyzeTransactions ts cfg).netCashFlow =
      (analyzeTransactions ts cfg).totalIncome -
        (analyzeTransactions ts cfg).totalSpent := by
  simp only [analyzeTransactions]
  exact (income_sub_spent _).symm

/-- C2: when the post-filter transaction list is empty (in particular for the
empty input), `analyzeTransactions` returns zeroed totals and empty
collections. -/
theorem analyzeTransactions_of_filter_empty (ts : List YNABTransaction)
    (cfg : Option AnalysisConfig) (h : filterTransactions ts cfg = []) :
    analyzeTransactions ts cfg =
      { totalSpent := 0, totalIncome := 0, netCashFlow := 0,
        topSpendingCategories := [], savingsOpportunities := [],
        budgetAnalysis := [], unusualTransactions := [],
        monthlyTrends := [] } := by
  simp [analyzeTransactions, h, calculateTotalSpent, calculateTotalIncome,
    calculateNetCashFlow, analyzeSpendingPatterns, findSavingsOpportunities,
    findRecurringSubscriptions, subscriptionCandidates,
    findHighFrequencySmallPurchases, smallPurchases,
    findCategoryOverspending, findUnusualSpikes, analyzeBudgetPerformance,
    findUnusualTransactions, analyzeMonthlyTrends, dedupFirst, sortBy]

/-- Witness for C2: the empty input with no configuration. -/
theorem analyzeTransactions_of_filter_empty_witness :
    analyzeTransactions [] none =
      { totalSpent := 0, totalIncome := 0, netCashFlow := 0,
        topSpendingCategories := [], savingsOpportunities := [],
        budgetAnalysis := [], unusualTransactions := [],
        monthlyTrends := [] } :=
  analyzeTransactions_of_filter_empty [] none rfl

/-- C3: a deleted transaction contributes to no part of the output: inserting
it anywhere in the input leaves the entire `FinancialInsights` result
unchanged, regardless of its other fields and of the configuration. -/
theorem deleted_transaction_inert (l1 l2 : List YNABTransaction)
    (t : YNABTransaction) (cfg : Option AnalysisConfig)
    (h : t.deleted = true) :
    analyzeTransactions (l1 ++ t :: l2) cfg =
      analyzeTransactions (l1 ++ l2) cfg := by
  have hf : filterTransactions (l1 ++ t :: l2) cfg =
      filterTransactions (l1 ++ l2) cfg := by
    unfold filterTransactions
    congr 1
    simp [List.filter_append, List.filter_cons, h]
  simp [analyzeTransactions, hf]

/-- The bucket totals of `analyzeSpendingPatterns` sum to the spent total. -/
theorem sum_patterns_totalAmount (ts : List YNABTransaction) :
    ((analyzeSpendingPatterns ts).map (fun p => p.totalAmount)).sum =
      calculateTotalSpent ts := by
  simp only [analyzeSpendingPatterns]
  rw [sum_map_sortBy, List.map_map]
  exact sum_over_keys getCategoryName (fun t => absQ t.amount)
    (dedupFirst ((ts.filter (fun t => decide (t.amount < 0))).map
      getCategoryName))
    (ts.filter (fun t => decide (t.amount < 0)))
    (nodup_dedupFirst _)
    (fun x hx => mem_dedupFirst.mpr (List.mem_map_of_mem _ hx))

/-- C8: for every input and configuration the total amounts of the returned
spending patterns sum exactly to the reported total spent. -/
theorem sum_topSpendingCategories_eq_totalSpent (ts : List YNABTransaction)
    (cfg : Option AnalysisConfig) :
    (((analyzeTransactions ts cfg).topSpendingCategories).map
      (fun p => p.totalAmount)).sum =
      (analyzeTransactions ts cfg).totalSpent := by
  simp only [analyzeTransactions]
  exact sum_patterns_totalAmount _

/-- Percentages of a partitioned total sum to 100 when the total is
nonzero. -/
theorem sum_map_div_mul_hundred {K : Type} (keys : List K) (T : K → ℚ)
    (S : ℚ) (hS : S ≠ 0) (hsum : (keys.map T).sum = S) :
    (keys.map (fun k => (T k / S) * 100)).sum = 100 := by
  calc (keys.map (fun k => (T k / S) * 100)).sum
      = (keys.map (fun k => T k * (100 / S))).sum := by
        apply congrArg List.sum
        apply List.map_congr_left
        intro k _
        rw [div_mul_eq_mul_div, mul_div_assoc]
    _ = (keys.map T).sum * (100 / S) := List.sum_map_mul_right _ _ _
    _ = S * (100 / S) := by rw [hsum]
    _ = 100 := by field_simp

/-- A zero spent total forces the negative-amount sublist to be empty. -/
theorem negatives_nil_of_totalSpent_eq_zero {ts : List YNABTransaction}
    (h : calculateTotalSpent ts = 0) :
    ts.filter (fun t => decide (t.amount < 0)) = [] := by
  cases hc : ts.filter (fun t => decide (t.amount < 0)) with
  | nil => rfl
  | cons t rest =>
    have ht : t ∈ ts.filter (fun t => decide (t.amount < 0)) := by
      rw [hc]; exact List.mem_cons_self t rest
    have h1 : t ∈ ts := (List.mem_filter.mp ht).1
    have h2 : t.amount < 0 := by simpa using (List.mem_filter.mp ht).2
    have := calculateTotalSpent_pos h1 h2
    linarith

/-- C4: the percentage-of-total values of the returned spending patterns sum
exactly to 100 when the total spent is positive, and every pattern shows
percentage 0 when the total spent is 0 (then no pattern exists at all, so
the zero-denominator division is never reached). -/
theorem percentages_sum (ts : List YNABTransaction)
    (cfg : Option AnalysisConfig) :
    (0 < (analyzeTransactions ts cfg).totalSpent →
      (((analyzeTransactions ts cfg).topSpendingCategories).map
        (fun p => p.percentageOfTotal)).sum = 100) ∧
    ((analyzeTransactions ts cfg).totalSpent = 0 →
      ∀ p ∈ (analyzeTransactions ts cfg).topSpendingCategories,
        p.percentageOfTotal = 0) := by
  simp only [analyzeTransactions]
  constructor
  · intro hS
    have hS0 : calculateTotalSpent (filterTransactions ts cfg) ≠ 0 :=
      ne_of_gt hS
    have hpart := sum_over_keys getCategoryName (fun t => absQ t.amount)
      (dedupFirst (((filterTransactions ts cfg).filter
        (fun t => decide (t.amount < 0))).map getCategoryName))
      ((filterTransactions ts cfg).filter (fun t => decide (t.amount < 0)))
      (nodup_dedupFirst _)
      (fun x hx => mem_dedupFirst.mpr (List.mem_map_of_mem _ hx))
    simp only [analyzeSpendingPatterns]
    rw [sum_map_sortBy, List.map_map]
    exact sum_map_div_mul_hundred _ _ _ hS0 hpart
  · intro hS
    have hnil := negatives_nil_of_totalSpent_eq_zero hS
    simp [analyzeSpendingPatterns, hnil, dedupFirst, sortBy]

/-- Witness for C4: the groceries scenario (spent 80, one pattern at 100%)
for the positive branch, and the empty input for the zero branch. -/
theorem percentages_sum_witness :
    ((0 < (analyzeTransactions [txGroceries1, txGroceries2, txIncome]
        none).totalSpent ∧
      (((analyzeTransactions [txGroceries1, txGroceries2, txIncome]
        none).topSpendingCategories).map
          (fun p => p.percentageOfTotal)).sum = 100) ∧
    ((analyzeTransactions [] none).totalSpent = 0 ∧
      ∀ p ∈ (analyzeTransactions [] none).topSpendingCategories,
        p.percentageOfTotal = 0)) := by
  have hpos : 0 < (analyzeTransactions [txGroceries1, txGroceries2, txIncome]
      none).totalSpent := by
    norm_num [analyzeTransactions, filterTransactions, configFilters,
      calculateTotalSpent, absQ, txGroceries1, txGroceries2, txIncome]
  have hzero : (analyzeTransactions [] none).totalSpent = 0 := rfl
  exact ⟨⟨hpos, (percentages_sum [txGroceries1, txGroceries2, txIncome]
      none).1 hpos⟩,
    ⟨hzero, (percentages_sum [] none).2 hzero⟩⟩

/-- C10: every category bucket handed to `calculateTrend` by
`analyzeSpendingPatterns` is non-empty and contains only negative-amount
transactions, so every monthly spent total of its trend sequence — in
particular the first, used as divisor — is strictly positive. -/
theorem trend_bucket_months_positive (ts : List YNABTransaction) (c : String)
    (hc : c ∈ dedupFirst ((ts.filter (fun t => decide (t.amount < 0))).map
      getCategoryName)) :
    ((ts.filter (fun t => decide (t.amount < 0))).filter
        (fun t => decide (getCategoryName t = c))) ≠ [] ∧
    (∀ t ∈ (ts.filter (fun t => decide (t.amount < 0))).filter
        (fun t => decide (getCategoryName t = c)), t.amount < 0) ∧
    ∀ r ∈ analyzeMonthlyTrends
        ((ts.filter (fun t => decide (t.amount < 0))).filter
          (fun t => decide (getCategoryName t = c))), 0 < r.spent := by
  obtain ⟨t0, ht0, hc0⟩ := List.mem_map.mp (mem_dedupFirst.mp hc)
  have ht0b : t0 ∈ (ts.filter (fun t => decide (t.amount < 0))).filter
      (fun t => decide (getCategoryName t = c)) :=
    List.mem_filter.mpr ⟨ht0, by simp [hc0]⟩
  have hbneg : ∀ t ∈ (ts.filter (fun t => decide (t.amount < 0))).filter
      (fun t => decide (getCategoryName t = c)), t.amount < 0 := by
    intro t htb
    have h1 := (List.mem_filter.mp htb).1
    simpa using (List.mem_filter.mp h1).2
  refine ⟨?_, hbneg, ?_⟩
  · intro hnil
    rw [hnil] at ht0b
    exact absurd ht0b (List.not_mem_nil t0)
  · intro r hr
    simp only [analyzeMonthlyTrends] at hr
    rw [mem_sortBy] at hr
    obtain ⟨k, hk, rfl⟩ := List.mem_map.mp hr
    obtain ⟨u, hu, hku⟩ := List.mem_map.mp (mem_dedupFirst.mp hk)
    have humem : u ∈ ((ts.filter (fun t => decide (t.amount < 0))).filter
        (fun t => decide (getCategoryName t = c))).filter
        (fun t => decide (monthKey t = k)) :=
      List.mem_filter.mpr ⟨hu, by simp [hku]⟩
    exact calculateTotalSpent_pos humem (hbneg u hu)

/-- Witness for C10: the single-transaction "Groceries" bucket. -/
theorem trend_bucket_months_positive_witness :
    (([txGroceries1].filter (fun t => decide (t.amount < 0))).filter
        (fun t => decide (getCategoryName t = "Groceries"))) ≠ [] ∧
    (∀ t ∈ ([txGroceries1].filter (fun t => decide (t.amount < 0))).filter
        (fun t => decide (getCategoryName t = "Groceries")), t.amount < 0) ∧
    ∀ r ∈ analyzeMonthlyTrends
        (([txGroceries1].filter (fun t => decide (t.amount < 0))).filter
          (fun t => decide (getCategoryName t = "Groceries"))),
      0 < r.spent :=
  trend_bucket_months_positive [txGroceries1] "Groceries" (by decide)

/-- The spent column of the sorted monthly trend rows is exactly the spec's
month-ascending spent totals sequence. -/
theorem map_spent_analyzeMonthlyTrends (ts : List YNABTransaction) :
    (analyzeMonthlyTrends ts).map (fun r => r.spent) =
      specMonthSpentTotals ts := by
  simp only [analyzeMonthlyTrends, specMonthSpentTotals]
  rw [sortBy_map (fun a b => decide (a ≤ b))
    (fun a b : MonthlyTrend => decide (a.month ≤ b.month))
    (fun k => { month := k
                spent := calculateTotalSpent
                  (ts.filter (fun t => decide (monthKey t = k)))
                income := calculateTotalIncome
                  (ts.filter (fun t => decide (monthKey t = k)))
                netFlow := calculateNetCashFlow
                  (ts.filter (fun t => decide (monthKey t = k))) })
    (fun _ _ => rfl), List.map_map]
  rfl

/-- C7: on every bucket of negative-amount transactions, `calculateTrend`
realises the spec's classification: `stable` with fewer than two distinct
months, otherwise `increasing`/`decreasing`/`stable` according to the
relative change between the last and first monthly spent totals with
thresholds ±0.10. -/
theorem calculateTrend_matches_spec (ts : List YNABTransaction)
    (hneg : ∀ t ∈ ts, t.amount < 0) :
    calculateTrend ts = specTrend ts := by
  clear hneg
  have hmap := map_spent_analyzeMonthlyTrends ts
  unfold calculateTrend specTrend
  cases hmt : analyzeMonthlyTrends ts with
  | nil =>
    rw [hmt] at hmap
    simp only [List.map_nil] at hmap
    rw [← hmap]
    simp
  | cons r rest =>
    cases rest with
    | nil =>
      rw [hmt] at hmap
      simp only [List.map_cons, List.map_nil] at hmap
      rw [← hmap]
      simp
    | cons r2 rest2 =>
      rw [hmt] at hmap
      simp only [List.map_cons] at hmap
      rw [← hmap]
      have hlen : ¬ ((r :: r2 :: rest2).length < 2) := by
        simp [List.length_cons]
      rw [if_neg hlen]
      simp only [List.headD_cons, List.getLastD_cons]
      have hlast : (rest2.map (fun r => r.spent)).getLastD r2.spent =
          (rest2.getLastD r2).spent := getLastD_map _ rest2 r2
      simp only [specClassify]
      rw [hlast]

/-- Witness for C7: a two-month grocery bucket growing by 20% classifies
`increasing` on both the code and the spec side. -/
theorem calculateTrend_matches_spec_witness :
    calculateTrend [txJan, txFeb] = specTrend [txJan, txFeb] ∧
    calculateTrend [txJan, txFeb] = Trend.increasing := by
  have h := calculateTrend_matches_spec [txJan, txFeb] (by decide)
  refine ⟨h, ?_⟩
  norm_num [calculateTrend, analyzeMonthlyTrends, dedupFirst, sortBy,
    insertBy, monthKey, txJan, txFeb, calculateTotalSpent,
    calculateTotalIncome, calculateNetCashFlow, absQ]

/-- An opportunity found by the recurring-subscription detector is in the
final sorted opportunity list. -/
theorem mem_savings_of_recurring {ts : List YNABTransaction}
    {o : SavingsOpportunity} (h : o ∈ findRecurringSubscriptions ts) :
    o ∈ findSavingsOpportunities ts := by
  unfold findSavingsOpportunities
  rw [mem_sortBy]
  exact List.mem_append_left _ (List.mem_append_left _
    (List.mem_append_left _ h))

/-- An opportunity found by the high-frequency detector is in the final
sorted opportunity list. -/
theorem mem_savings_of_hf {ts : List YNABTransaction}
    {o : SavingsOpportunity} (h : o ∈ findHighFrequencySmallPurchases ts) :
    o ∈ findSavingsOpportunities ts := by
  unfold findSavingsOpportunities
  rw [mem_sortBy]
  exact List.mem_append_left _ (List.mem_append_left _
    (List.mem_append_right _ h))

/-- Every final opportunity comes from one of the three live detectors (the
category-overspend detector is an always-empty stub). -/
theorem mem_savings_cases {ts : List YNABTransaction}
    {o : SavingsOpportunity} (h : o ∈ findSavingsOpportunities ts) :
    o ∈ findRecurringSubscriptions ts ∨
      o ∈ findHighFrequencySmallPurchases ts ∨
      o ∈ findUnusualSpikes ts := by
  unfold findSavingsOpportunities at h
  rw [mem_sortBy] at h
  simp only [List.mem_append, findCategoryOverspending, List.not_mem_nil,
    false_or, or_false] at h
  tauto

/-- The recurring detector only emits `recurring_subscription` tags. -/
theorem type_of_mem_recurring {ts : List YNABTransaction}
    {o : SavingsOpportunity} (h : o ∈ findRecurringSubscriptions ts) :
    o.type = .recurring_subscription := by
  obtain ⟨p, -, hp⟩ := List.mem_filterMap.mp h
  simp only at hp
  split_ifs at hp
  · obtain rfl := Option.some.inj hp
    rfl

/-- Inversion for the high-frequency detector: tag, bucket size, bucket
contents, savings and confidence of every emitted opportunity. -/
theorem mem_hf_inv {ts : List YNABTransaction} {o : SavingsOpportunity}
    (h : o ∈ findHighFrequencySmallPurchases ts) :
    o.type = .high_frequency_small ∧
    10 ≤ (smallCategoryGroup ts o.category).length ∧
    o.transactions = smallCategoryGroup ts o.category ∧
    o.potentialSavings =
      (((smallCategoryGroup ts o.category).map
        (fun t => absQ t.amount)).sum) * (3/10) ∧
    o.confidence = .medium := by
  obtain ⟨c, -, hp⟩ := List.mem_filterMap.mp h
  simp only at hp
  split_ifs at hp with h10
  · obtain rfl := Option.some.inj hp
    exact ⟨rfl, h10, rfl, rfl, rfl⟩

/-- Inversion for the spike detector: tag, and every referenced transaction
belongs to the bucket of the opportunity's resolved category. -/
theorem mem_spikes_inv {ts : List YNABTransaction} {o : SavingsOpportunity}
    (h : o ∈ findUnusualSpikes ts) :
    o.type = .unusual_spike ∧
    ∀ t ∈ o.transactions, t ∈ spikeCategoryGroup ts o.category := by
  obtain ⟨c, -, hp⟩ := List.mem_filterMap.mp h
  simp only at hp
  split_ifs at hp with h5 hmax
  · obtain rfl := Option.some.inj hp
    refine ⟨rfl, ?_⟩
    intro t ht
    simp only [List.mem_singleton] at ht
    subst ht
    have hne : (spikeCategoryGroup ts c).map (fun t => absQ t.amount) ≠ [] := by
      intro hnil
      rw [List.map_eq_nil_iff] at hnil
      rw [hnil] at h5
      simp at h5
    have hmaxmem := listMax_mem hne
    obtain ⟨x, hx, hxe⟩ := List.mem_map.mp hmaxmem
    cases hfind : (spikeCategoryGroup ts c).find?
        (fun t => decide (absQ t.amount =
          listMax ((spikeCategoryGroup ts c).map
            (fun t => absQ t.amount)))) with
    | none =>
      have := List.find?_eq_none.mp hfind x hx
      simp [hxe] at this
    | some x0 =>
      simp only [hfind, Option.getD_some]
      exact List.mem_of_find?_eq_some hfind

/-- C6: for every non-empty payee name whose post-filter negative-amount
bucket has at least two transactions and population variance of absolute
amounts below a tenth of their mean, `analyzeTransactions` emits a
`recurring_subscription` opportunity for exactly that bucket with
`potentialSavings` equal to the mean times 12 and confidence `high`. -/
theorem recurring_subscription_emitted (ts : List YNABTransaction)
    (cfg : Option AnalysisConfig) (p : String) (pts : List YNABTransaction)
    (hpts : pts = payeeGroup (filterTransactions ts cfg) p)
    (hp : p ≠ "") (h2 : 2 ≤ pts.length)
    (hvar : payeeVariance pts < payeeAvg pts * (1/10)) :
    ∃ o ∈ (analyzeTransactions ts cfg).savingsOpportunities,
      o.type = .recurring_subscription ∧ o.confidence = .high ∧
      o.potentialSavings = payeeAvg pts * 12 ∧ o.transactions = pts := by
  subst hpts
  clear hp
  have hne : payeeGroup (filterTransactions ts cfg) p ≠ [] := by
    intro h
    rw [h] at h2
    simp at h2
  obtain ⟨t0, ht0⟩ := List.exists_mem_of_ne_nil _ hne
  have ht0c : t0 ∈ subscriptionCandidates (filterTransactions ts cfg) :=
    (List.mem_filter.mp ht0).1
  have ht0p : t0.payee_name.getD "" = p := by
    simpa using (List.mem_filter.mp ht0).2
  have hkey : p ∈ dedupFirst
      ((subscriptionCandidates (filterTransactions ts cfg)).map
        (fun t => t.payee_name.getD "")) :=
    mem_dedupFirst.mpr (List.mem_map.mpr ⟨t0, ht0c, ht0p⟩)
  have homem : ({ type := .recurring_subscription
                  category := strOr (payeeGroup (filterTransactions ts cfg)
                    p).headI.category_name "Uncategorized"
                  description := "Review subscription to " ++ p
                  potentialSavings :=
                    payeeAvg (payeeGroup (filterTransactions ts cfg) p) * 12
                  confidence := .high
                  recommendations :=
                    ["Review if this subscription is still needed",
                     "Check for cheaper alternatives",
                     "Consider annual billing for discounts"]
                  transactions := payeeGroup (filterTransactions ts cfg) p } :
      SavingsOpportunity) ∈
      findRecurringSubscriptions (filterTransactions ts cfg) := by
    apply List.mem_filterMap.mpr
    refine ⟨p, hkey, ?_⟩
    simp only
    rw [if_pos h2, if_pos hvar]
  exact ⟨_, mem_savings_of_recurring homem, rfl, rfl, rfl, rfl⟩

/-- Witness for C6: five 9.99 charges of the same payee across five months
yield a high-confidence recurring-subscription opportunity with potential
savings exactly 119.88. -/
theorem recurring_subscription_emitted_witness :
    ∃ o ∈ (analyzeTransactions fiveNetflix none).savingsOpportunities,
      o.type = .recurring_subscription ∧ o.confidence = .high ∧
      o.potentialSavings = (11988 : ℚ)/100 := by
  obtain ⟨o, hm, h1, h2, h3, h4⟩ :=
    recurring_subscription_emitted fiveNetflix none "Netflix" _ rfl
      (by decide)
      (by norm_num [payeeGroup, subscriptionCandidates, filterTransactions,
        configFilters, fiveNetflix, txNetflix, truthyStr, List.filter])
      (by norm_num [payeeGroup, subscriptionCandidates, filterTransactions,
        configFilters, fiveNetflix, txNetflix, truthyStr, payeeVariance,
        payeeAvg, absQ, List.filter])
  refine ⟨o, hm, h1, h2, ?_⟩
  rw [h3]
  norm_num [payeeGroup, subscriptionCandidates, filterTransactions,
    configFilters, fiveNetflix, txNetflix, truthyStr, payeeAvg, absQ,
    List.filter]

/-- C9: a resolved category with at least ten small (absolute value < 20)
negative purchases yields a `high_frequency_small` opportunity with
savings 30% of the bucket total and confidence `medium`; a category with
fewer than ten yields no such opportunity. -/
theorem high_frequency_small_behaviour (ts : List YNABTransaction)
    (cfg : Option AnalysisConfig) (c : String)
    (cts : List YNABTransaction)
    (hcts : cts = smallCategoryGroup (filterTransactions ts cfg) c) :
    (10 ≤ cts.length →
      ∃ o ∈ (analyzeTransactions ts cfg).savingsOpportunities,
        o.type = .high_frequency_small ∧ o.category = c ∧
        o.confidence = .medium ∧
        o.potentialSavings = ((cts.map (fun t => absQ t.amount)).sum) * (3/10) ∧
        o.transactions = cts) ∧
    (cts.length < 10 →
      ∀ o ∈ (analyzeTransactions ts cfg).savingsOpportunities,
        o.type = .high_frequency_small → o.category ≠ c) := by
  subst hcts
  constructor
  · intro h10
    have hne : smallCategoryGroup (filterTransactions ts cfg) c ≠ [] := by
      intro h
      rw [h] at h10
      simp at h10
    obtain ⟨t0, ht0⟩ := List.exists_mem_of_ne_nil _ hne
    have ht0s : t0 ∈ smallPurchases (filterTransactions ts cfg) :=
      (List.mem_filter.mp ht0).1
    have ht0c : getCategoryName t0 = c := by
      simpa using (List.mem_filter.mp ht0).2
    have hkey : c ∈ dedupFirst
        ((smallPurchases (filterTransactions ts cfg)).map getCategoryName) :=
      mem_dedupFirst.mpr (List.mem_map.mpr ⟨t0, ht0s, ht0c⟩)
    have homem : ({ type := .high_frequency_small
                    category := c
                    description := "Frequent small purchases in " ++ c
                    potentialSavings :=
                      (((smallCategoryGroup (filterTransactions ts cfg)
                        c).map (fun t => absQ t.amount)).sum) * (3/10)
                    confidence := .medium
                    recommendations :=
                      ["Set a monthly budget for this category",
                       "Consider bulk purchasing",
                       "Track these purchases more carefully"]
                    transactions :=
                      smallCategoryGroup (filterTransactions ts cfg) c } :
        SavingsOpportunity) ∈
        findHighFrequencySmallPurchases (filterTransactions ts cfg) := by
      apply List.mem_filterMap.mpr
      refine ⟨c, hkey, ?_⟩
      simp only
      rw [if_pos h10]
    exact ⟨_, mem_savings_of_hf homem, rfl, rfl, rfl, rfl, rfl⟩
  · intro hlt o ho htype hcat
    have ho2 : o ∈ findSavingsOpportunities (filterTransactions ts cfg) := ho
    rcases mem_savings_cases ho2 with hrec | hhf | hsp
    · rw [type_of_mem_recurring hrec] at htype
      cases htype
    · have hinv := mem_hf_inv hhf
      rw [hcat] at hinv
      omega
    · rw [(mem_spikes_inv hsp).1] at htype
      cases htype

/-- Witness for C9: twelve 4.00 coffee purchases yield a medium-confidence
high-frequency opportunity with savings 0.30 × 48 = 14.40, while the empty
input yields no high-frequency opportunity for "Coffee". -/
theorem high_frequency_small_behaviour_witness :
    (∃ o ∈ (analyzeTransactions twelveCoffee none).savingsOpportunities,
      o.type = .high_frequency_small ∧ o.category = "Coffee" ∧
      o.confidence = .medium ∧ o.potentialSavings = (144 : ℚ)/10) ∧
    (∀ o ∈ (analyzeTransactions [] none).savingsOpportunities,
      o.type = .high_frequency_small → o.category ≠ "Coffee") := by
  constructor
  · obtain ⟨o, hm, h1, h2, h3, h4, h5⟩ :=
      (high_frequency_small_behaviour twelveCoffee none "Coffee" _ rfl).1
        (by norm_num +decide [smallCategoryGroup, smallPurchases,
          filterTransactions, configFilters, twelveCoffee, txCoffee,
          getCategoryName, truthyStr, strOr, absQ, List.filter])
    refine ⟨o, hm, h1, h2, h3, ?_⟩
    rw [h4]
    norm_num +decide [smallCategoryGroup, smallPurchases, filterTransactions,
      configFilters, twelveCoffee, txCoffee, getCategoryName, truthyStr,
      strOr, absQ, List.filter]
  · exact (high_frequency_small_behaviour [] none "Coffee" _ rfl).2
      (by decide)

/-- Counterexample for C5: two equal credit-card transfer outflows with no
category form a recurring-subscription opportunity whose reported category
is "Uncategorized", even though each transaction's payee name starts with
"Transfer" and its category is absent. -/
theorem transfer_uncategorized_counterexample :
    strStartsWith (txTransfer1.payee_name.getD "") "Transfer" = true ∧
    txTransfer1.category_id = none ∧ txTransfer1.category_name = none ∧
    ∃ o ∈ (analyzeTransactions [txTransfer1, txTransfer2]
        none).savingsOpportunities,
      o.category = "Uncategorized" ∧ txTransfer1 ∈ o.transactions := by
  refine ⟨by decide, rfl, rfl, ?_⟩
  norm_num +decide [analyzeTransactions, filterTransactions, configFilters,
    findSavingsOpportunities, findRecurringSubscriptions,
    findHighFrequencySmallPurchases, findCategoryOverspending,
    findUnusualSpikes, subscriptionCandidates, payeeGroup, payeeAvg,
    payeeVariance, smallPurchases, smallCategoryGroup, spikeCategoryGroup,
    dedupFirst, sortBy, insertBy, listMax, truthyStr, strOr, absQ,
    getCategoryName, txTransfer1, txTransfer2, List.filter, List.filterMap]

/-- C5 (amended): a transaction whose payee name starts with "Transfer" and
whose category id is not truthy resolves to "Credit Card Payment" before
grouping, and is therefore never in an "Uncategorized" spending-pattern
bucket nor in an "Uncategorized" high-frequency or spike opportunity; the
recurring-subscription detector, however, labels its category from the raw
`category_name` and is excluded here. -/
theorem transfer_reclassified (t : YNABTransaction)
    (h1 : strStartsWith (t.payee_name.getD "") "Transfer" = true)
    (h2 : truthyStr t.category_id = false) :
    getCategoryName t = "Credit Card Payment" ∧
    (∀ ts : List YNABTransaction,
      t ∉ (ts.filter (fun x => decide (x.amount < 0))).filter
        (fun x => decide (getCategoryName x = "Uncategorized"))) ∧
    (∀ ts : List YNABTransaction,
      ∀ o ∈ findHighFrequencySmallPurchases ts,
        t ∈ o.transactions → o.category = "Credit Card Payment") ∧
    (∀ ts : List YNABTransaction, ∀ o ∈ findUnusualSpikes ts,
      t ∈ o.transactions → o.category = "Credit Card Payment") := by
  have hcat : getCategoryName t = "Credit Card Payment" := by
    unfold getCategoryName
    rw [if_pos]
    rw [h1, h2]
    rfl
  refine ⟨hcat, ?_, ?_, ?_⟩
  · intro ts hmem
    have hu := (List.mem_filter.mp hmem).2
    rw [decide_eq_true_eq, hcat] at hu
    exact absurd hu (by decide)
  · intro ts o ho htmem
    have hinv := mem_hf_inv ho
    rw [hinv.2.2.1] at htmem
    have hu := (List.mem_filter.mp htmem).2
    rw [decide_eq_true_eq, hcat] at hu
    exact hu.symm
  · intro ts o ho htmem
    have hinv := mem_spikes_inv ho
    have hin := hinv.2 t htmem
    have hu := (List.mem_filter.mp hin).2
    rw [decide_eq_true_eq, hcat] at hu
    exact hu.symm

/-- Witness for C5 (amended): the concrete transfer transaction resolves to
"Credit Card Payment" and sits in no "Uncategorized" spending bucket of the
concrete input. -/
theorem transfer_reclassified_witness :
    getCategoryName txTransfer1 = "Credit Card Payment" ∧
    txTransfer1 ∉ ([txTransfer1, txTransfer2].filter
        (fun x => decide (x.amount < 0))).filter
      (fun x => decide (getCategoryName x = "Uncategorized")) := by
  have h := transfer_reclassified txTransfer1 (by decide) (by decide)
  exact ⟨h.1, h.2.1 [txTransfer1, txTransfer2]⟩

/-- Witness for C3: a deleted 500.00 grocery outflow changes nothing. -/
theorem deleted_transaction_inert_witness :
    analyzeTransactions [txGroceries1, txDeleted] none =
        analyzeTransactions [txGroceries1] none ∧
      txDeleted.deleted = true :=
  ⟨deleted_transaction_inert [txGroceries1] [] txDeleted none rfl, rfl⟩

end FinanceAnalyzer
